import Mathlib

/-!
Verification of the OpenTargets front-end (src/src/App.jsx).

The program is a single-page React app.  Its logic is embedded shallowly:

* JavaScript strings are modelled as lists of natural numbers (their code
  units, `JStr`); the ASCII case maps of `toUpperCase` / `toLowerCase`
  are modelled on the ASCII range, which covers every category identifier
  the program handles.
* `formatLabel`, `allDataTypes` and `chartData` are direct translations
  of the code at App.jsx lines 66-92.
* The per-row view state (`open`, `tabValue`) and its transitions, the
  resize-listener effect with dependency array `[open, tabValue]`, the
  `fetchData` error handling and the table-body rendering are embedded
  as explicit state-passing functions further below.

Scores are modelled as rationals: the program never performs arithmetic
on scores (it only copies them or fills zero), so the choice of number
type is irrelevant to the verified properties.
-/

/-- A JavaScript string, as its sequence of code units. -/
abbrev JStr := List Nat

/-- Bridge from Lean string literals to the code-unit model (ASCII inputs). -/
def ofStr (s : String) : JStr := s.data.map Char.toNat

/-- ASCII model of the case map used by `String.prototype.toLowerCase`. -/
def jsToLowerC (c : Nat) : Nat := if 65 ≤ c ∧ c ≤ 90 then c + 32 else c

/-- ASCII model of the case map used by `String.prototype.toUpperCase`. -/
def jsToUpperC (c : Nat) : Nat := if 97 ≤ c ∧ c ≤ 122 then c - 32 else c

/-- Model of `toLowerCase` on a whole string. -/
def toLowerStr (w : JStr) : JStr := w.map jsToLowerC

/-- Model of `label.split('_')` — the JavaScript split semantics: `"".split('_') = [""]`,
`"_".split('_') = ["", ""]`. -/
def splitOnU : JStr → List JStr
  | [] => [[]]
  | c :: cs =>
    if c = 95 then [] :: splitOnU cs
    else
      match splitOnU cs with
      | [] => [[c]]
      | w :: ws => (c :: w) :: ws

/-- Model of `parts.join(' ')`. -/
def joinSp : List JStr → JStr
  | [] => []
  | [w] => w
  | w :: ws => w ++ 32 :: joinSp ws

/-- Model of `word.charAt(0).toUpperCase() + word.slice(1)` (App.jsx line 73);
on the empty string this yields the empty string, as in JavaScript. -/
def capFirst : JStr → JStr
  | [] => []
  | c :: cs => jsToUpperC c :: cs

/-- The per-segment map inside `formatLabel` (App.jsx lines 69-74). -/
def formatSeg (w : JStr) : JStr :=
  if toLowerStr w = ofStr "rna" then ofStr "RNA" else capFirst w

/-- The function `formatLabel` (App.jsx lines 66-76): split on underscore, map each
segment, rejoin with single spaces. -/
def formatLabel (label : JStr) : JStr :=
  joinSp ((splitOnU label).map formatSeg)

/-- The list `allDataTypes` (App.jsx line 80): the seven known categories in their
fixed display order. -/
def allDataTypes : List JStr :=
  [ofStr "literature", ofStr "rna_expression", ofStr "genetic_association",
   ofStr "somatic_mutation", ofStr "known_drug", ofStr "animal_model",
   ofStr "affected_pathway"]

/-- One element of `row.datatypeScores`: a category identifier and score. -/
structure CategoryScore where
  id : JStr
  score : ℚ
deriving DecidableEq, Repr

/-- The function `chartData` (App.jsx lines 84-92): for each of the seven fixed
categories, look up the first matching entry of the row's sparse score
list (`Array.prototype.find`) and take its score, or zero when absent;
pair it with the formatted label. -/
def chartData (datatypeScores : List CategoryScore) : List (JStr × ℚ) :=
  allDataTypes.map fun type =>
    match datatypeScores.find? (fun score => score.id = type) with
    | some foundScore => (formatLabel type, foundScore.score)
    | none => (formatLabel type, 0)

/-- The `row.target` object of the GraphQL response shape. -/
structure Target where
  id : JStr
  approvedSymbol : JStr
  approvedName : JStr
deriving DecidableEq, Repr

/-- One row of `associatedTargets.rows`: a target-disease association. -/
structure AssociationRow where
  target : Target
  score : ℚ
  datatypeScores : List CategoryScore
deriving DecidableEq, Repr

/-- The per-row view state of the `Row` component (App.jsx lines 52-53):
`open` (here `isOpen`, since `open` is a Lean keyword) and `tabValue`. -/
structure RowState where
  isOpen : Bool
  tabValue : Nat
deriving DecidableEq, Repr

/-- Initial per-row state: `useState(false)`, `useState(0)`. -/
def initRowState : RowState := ⟨false, 0⟩

/-- The user interactions that change a row's view state. -/
inductive RowEvent where
  | toggle
  | setTab (n : Nat)
deriving DecidableEq, Repr

/-- The state transitions of the `Row` component: the expand toggle runs
`setOpen(!open)` (App.jsx line 246) and the tab control runs
`setTabValue(newValue)` (App.jsx lines 61-63). -/
def stepRow (e : RowEvent) (s : RowState) : RowState :=
  match e with
  | .toggle => { s with isOpen := !s.isOpen }
  | .setTab n => { s with tabValue := n }

/-- The two chart projections. -/
inductive ChartKind where
  | bar
  | radar
deriving DecidableEq, Repr

/-- Which chart the row renders (App.jsx lines 276-293): the `Collapse`
with `unmountOnExit` shows nothing while closed; `tabValue === 0` shows
the bar chart and `tabValue === 1` the radar chart. -/
def displayedChart (s : RowState) : Option ChartKind :=
  if s.isOpen = false then none
  else if s.tabValue = 0 then some ChartKind.bar
  else if s.tabValue = 1 then some ChartKind.radar
  else none

/-- A mounted `Row` component: its props (`row`) plus its view state. -/
structure RowComponent where
  row : AssociationRow
  state : RowState
deriving DecidableEq, Repr

/-- An interaction only updates the view state; the `row` prop is never
written (the component has no code path that mutates it). -/
def stepRowComponent (e : RowEvent) (c : RowComponent) : RowComponent :=
  { c with state := stepRow e c.state }

/-- Run a sequence of interactions on a mounted row. -/
def runRowEvents (es : List RowEvent) (c : RowComponent) : RowComponent :=
  es.foldl (fun c e => stepRowComponent e c) c

/-!
The resize-listener effect (App.jsx lines 206-233).  The effect has
dependency array `[open, tabValue]`.  React's semantics for such an
effect: it runs after the first render (registering one `resize`
listener via `window.addEventListener`); after any re-render in which
`open` or `tabValue` changed, the previous run's cleanup executes
(removing that listener) and the effect runs again (registering a new
one); on unmount the last cleanup executes.  A `setTabValue` with the
current value causes no state change and hence no effect re-run.
`resizeListeners` counts the currently registered listeners.
-/
structure RowProc where
  isOpen : Bool
  tabValue : Nat
  mounted : Bool
  resizeListeners : Nat
deriving DecidableEq, Repr

/-- A freshly mounted row: collapsed, bar tab, effect has run once, so
one resize listener is registered. -/
def mountedRow : RowProc := ⟨false, 0, true, 1⟩

/-- Lifecycle events of a mounted row. -/
inductive ProcEvent where
  | toggle
  | setTab (n : Nat)
  | unmount
deriving DecidableEq, Repr

/-- Effect semantics for dependency array `[open, tabValue]`: a toggle
always changes `open`, so cleanup (remove) then effect (add) run; a tab
change re-runs them only when the value differs; unmount runs the final
cleanup. Events on an unmounted row do nothing. -/
def stepProc (s : RowProc) (e : ProcEvent) : RowProc :=
  if s.mounted = false then s
  else
    match e with
    | .toggle => { s with isOpen := !s.isOpen, resizeListeners := s.resizeListeners - 1 + 1 }
    | .setTab n =>
      if n = s.tabValue then s
      else { s with tabValue := n, resizeListeners := s.resizeListeners - 1 + 1 }
    | .unmount => { s with mounted := false, resizeListeners := s.resizeListeners - 1 }

/-- Run a lifecycle event sequence from the freshly mounted state. -/
def runProc (es : List ProcEvent) : RowProc :=
  es.foldl stepProc mountedRow

/-! The fetch pipeline (App.jsx lines 303-360) and the view it feeds
(lines 362-412). -/

/-- The `associatedTargets` object: its `rows` field, absent when the
path stops here. -/
structure ATObj where
  rows : Option (List AssociationRow)
deriving Repr

/-- The `disease` object of the response. -/
structure DiseaseObj where
  associatedTargets : Option ATObj
deriving Repr

/-- The `data` object of the response. -/
structure DataObj where
  disease : Option DiseaseObj
deriving Repr

/-- A parsed JSON response body (`result`). -/
structure Payload where
  data : Option DataObj
deriving Repr

/-- Model of `result.data?.disease?.associatedTargets?.rows` — the optional-chain
lookup at App.jsx line 347; any missing level yields nothing.  (In
JavaScript an empty `rows` array is truthy, so `some []` passes the
check, matching `Option` here.) -/
def extractRows (p : Payload) : Option (List AssociationRow) :=
  p.data.bind fun d =>
    d.disease.bind fun q =>
      q.associatedTargets.bind fun a => a.rows

/-- The body of the HTTP response: either `response.json()` rejects
(invalid JSON) or it yields a parsed payload. -/
inductive JsonBody where
  | parseError
  | parsed (result : Payload)
deriving Repr

/-- An HTTP response as `fetchData` observes it. -/
structure FetchResponse where
  status : Nat
  body : JsonBody
deriving Repr

/-- Model of `response.ok` per the fetch specification: status in 200-299. -/
def respOk (status : Nat) : Bool := 200 ≤ status && status ≤ 299

/-- The `App` component's state (App.jsx lines 304-306). -/
structure AppState where
  targets : List AssociationRow
  isLoading : Bool
  error : Option String
deriving Repr

/-- The function `fetchData` (App.jsx lines 333-357), as the state it leaves once the
response has settled: a non-ok status throws
`'Network response was not ok'`; a body that fails to parse throws the
runtime's own message (`parseErrMsg`, a parameter, since it comes from
the JSON engine and not from this repository); a parsed body missing the
nested rows path throws `'Data structure from API is not as expected.'`;
otherwise the rows are stored.  The `catch` stores the thrown message in
`error`, and `finally` clears `isLoading`. -/
def fetchData (parseErrMsg : String) (resp : FetchResponse) : AppState :=
  if respOk resp.status = false then
    { targets := [], isLoading := false, error := some "Network response was not ok" }
  else
    match resp.body with
    | .parseError =>
      { targets := [], isLoading := false, error := some parseErrMsg }
    | .parsed result =>
      match extractRows result with
      | some rows => { targets := rows, isLoading := false, error := none }
      | none =>
        { targets := [], isLoading := false,
          error := some "Data structure from API is not as expected." }

/-- One rendered row of the table body: the empty-list placeholder
(App.jsx lines 400-406) or a data row (line 397). -/
inductive BodyRow where
  | placeholder
  | dataRow (r : AssociationRow)
deriving Repr

/-- Whether a body row is a data row. -/
def isDataRow : BodyRow → Bool
  | .dataRow _ => true
  | .placeholder => false

/-- The table body (App.jsx lines 394-408): one data row per target when
the list is non-empty, else a single placeholder row. -/
def renderBody (targets : List AssociationRow) : List BodyRow :=
  if targets.length > 0 then targets.map BodyRow.dataRow
  else [BodyRow.placeholder]

/-- What the `App` component renders. -/
inductive AppView where
  | loadingView
  | errorView (msg : String)
  | tableView (body : List BodyRow)
deriving Repr

/-- The top-level render (App.jsx lines 362-412): `if (isLoading)` shows
the spinner; `if (error)` shows the alert — JavaScript truthiness, so an
empty-string message would fall through to the table; otherwise the
table body is rendered. -/
def renderApp (st : AppState) : AppView :=
  if st.isLoading then AppView.loadingView
  else
    match st.error with
    | some m => if m.length = 0 then AppView.tableView (renderBody st.targets) else AppView.errorView m
    | none => AppView.tableView (renderBody st.targets)

/-- Number of data rows a view shows. -/
def dataRowCount : AppView → Nat
  | .tableView body => body.countP isDataRow
  | _ => 0

/-- Number of placeholder rows a view shows. -/
def placeholderCount : AppView → Nat
  | .tableView body => body.countP (fun r => !isDataRow r)
  | _ => 0

example : ofStr "rna" = [114, 110, 97] := by decide
example : formatLabel (ofStr "rna_expression") = ofStr "RNA Expression" := by decide
example : formatLabel (ofStr "genetic_association") = ofStr "Genetic Association" := by decide
example :
    chartData [⟨ofStr "genetic_association", 8/10⟩, ⟨ofStr "literature", 2/10⟩] =
      [(ofStr "Literature", 2/10), (ofStr "RNA Expression", 0),
       (ofStr "Genetic Association", 8/10), (ofStr "Somatic Mutation", 0),
       (ofStr "Known Drug", 0), (ofStr "Animal Model", 0),
       (ofStr "Affected Pathway", 0)] := by rfl

/-! Helper lemmas. -/

/-- A non-empty string has non-zero length (JavaScript truthiness of the
stored error message). -/
theorem length_ne_zero_of_ne_empty (s : String) (h : s ≠ "") : s.length ≠ 0 := by
  intro h0
  apply h
  cases s with
  | mk data =>
    simp [String.length] at h0
    simp [h0]

/-- Interactions never write the `row` prop. -/
theorem stepRowComponent_row (e : RowEvent) (c : RowComponent) :
    (stepRowComponent e c).row = c.row := rfl

/-- A whole interaction sequence never writes the `row` prop. -/
theorem runRowEvents_row (es : List RowEvent) (c : RowComponent) :
    (runRowEvents es c).row = c.row := by
  induction es generalizing c with
  | nil => rfl
  | cons e es ih => exact (ih (stepRowComponent e c)).trans (stepRowComponent_row e c)

/-- One lifecycle step preserves the listener-count invariant: a mounted
row holds exactly one registered resize listener, an unmounted one none. -/
theorem stepProc_listener_invariant (s : RowProc) (e : ProcEvent)
    (h : s.resizeListeners = if s.mounted then 1 else 0) :
    (stepProc s e).resizeListeners = if (stepProc s e).mounted then 1 else 0 := by
  by_cases hm : s.mounted = false
  · simp [stepProc, hm]
    simpa [hm] using h
  · simp only [Bool.not_eq_false] at hm
    cases e with
    | toggle => simp [stepProc, hm] at h ⊢; omega
    | setTab n =>
      by_cases hn : n = s.tabValue
      · simp [stepProc, hm, hn] at h ⊢; omega
      · simp [stepProc, hm, hn] at h ⊢; omega
    | unmount => simp [stepProc, hm] at h ⊢; omega

/-- The listener-count invariant holds along any event sequence. -/
theorem foldl_stepProc_invariant (es : List ProcEvent) (s : RowProc)
    (h : s.resizeListeners = if s.mounted then 1 else 0) :
    (es.foldl stepProc s).resizeListeners = if (es.foldl stepProc s).mounted then 1 else 0 := by
  induction es generalizing s with
  | nil => exact h
  | cons e es ih => exact ih (stepProc s e) (stepProc_listener_invariant s e h)

/-! Claim theorems. -/

/-- C2: `formatLabel` splits its argument on the underscore delimiter,
maps each segment whose lowercase form is "rna" to the exact string
"RNA", capitalizes the first character of every other segment, and
rejoins the segments with single spaces; concrete instances shown for
two category identifiers. -/
theorem C2_formatLabel_description (label : JStr) :
    formatLabel label =
      joinSp ((splitOnU label).map fun w =>
        if toLowerStr w = ofStr "rna" then ofStr "RNA" else capFirst w) ∧
    formatLabel (ofStr "rna_expression") = ofStr "RNA Expression" ∧
    formatLabel (ofStr "genetic_association") = ofStr "Genetic Association" :=
  ⟨rfl, by decide, by decide⟩

/-- C5: the per-row view state machine starts collapsed; the toggle
control flips collapsed and expanded; the first expansion shows the bar
projection (the initial tab value); the tab control switches between the
bar and radar projections while expanded; and the tab value persists
across collapse, so re-expansion restores the last-used tab. -/
theorem C5_row_state_machine :
    (initRowState.isOpen = false ∧ displayedChart initRowState = none) ∧
    (∀ s : RowState, (stepRow RowEvent.toggle s).isOpen = !s.isOpen) ∧
    ((stepRow RowEvent.toggle initRowState).isOpen = true ∧
      displayedChart (stepRow RowEvent.toggle initRowState) = some ChartKind.bar) ∧
    (∀ s : RowState, s.isOpen = true →
      displayedChart (stepRow (RowEvent.setTab 0) s) = some ChartKind.bar ∧
      displayedChart (stepRow (RowEvent.setTab 1) s) = some ChartKind.radar) ∧
    (∀ (s : RowState) (n : Nat), (stepRow RowEvent.toggle s).tabValue = s.tabValue ∧
      (stepRow (RowEvent.setTab n) s).isOpen = s.isOpen) ∧
    (∀ s : RowState, s.isOpen = true → s.tabValue = 1 →
      displayedChart (stepRow RowEvent.toggle (stepRow RowEvent.toggle s)) =
        some ChartKind.radar) := by
  refine ⟨⟨rfl, rfl⟩, fun s => rfl, ⟨rfl, rfl⟩, fun s hs => ⟨?_, ?_⟩,
    fun s n => ⟨rfl, rfl⟩, fun s hs ht => ?_⟩
  · simp [stepRow, displayedChart, hs]
  · simp [stepRow, displayedChart, hs]
  · simp [stepRow, displayedChart, hs, ht]

/-- C5 witness: expanding a fresh row and selecting tab 1 shows the
radar projection. -/
theorem C5_row_state_machine_witness :
    displayedChart (stepRow (RowEvent.setTab 1) (stepRow RowEvent.toggle initRowState)) =
      some ChartKind.radar :=
  (C5_row_state_machine.2.2.2.1 (stepRow RowEvent.toggle initRowState) (by decide)).2

/-- C6: any sequence of open/tab interactions leaves the row's
normalized score vector unchanged, since the interactions never write
the row's score set and `chartData` depends only on it. -/
theorem C6_chartData_frame (c : RowComponent) (es : List RowEvent) :
    chartData (runRowEvents es c).row.datatypeScores =
      chartData c.row.datatypeScores := by
  rw [runRowEvents_row]

/-- C7: with zero rows the table body is exactly one placeholder row and
no data rows; with a non-empty list it is one data row per association
and no placeholder. -/
theorem C7_table_body :
    (renderApp ⟨[], false, none⟩ = AppView.tableView [BodyRow.placeholder] ∧
      dataRowCount (renderApp ⟨[], false, none⟩) = 0 ∧
      placeholderCount (renderApp ⟨[], false, none⟩) = 1) ∧
    (∀ ts : List AssociationRow, ts ≠ [] →
      renderApp ⟨ts, false, none⟩ = AppView.tableView (ts.map BodyRow.dataRow) ∧
      dataRowCount (renderApp ⟨ts, false, none⟩) = ts.length ∧
      placeholderCount (renderApp ⟨ts, false, none⟩) = 0) := by
  refine ⟨⟨rfl, rfl, rfl⟩, fun ts hts => ?_⟩
  have hlen : ts.length > 0 := List.length_pos.mpr hts
  refine ⟨?_, ?_, ?_⟩
  · simp [renderApp, renderBody, hlen]
  · simp [renderApp, renderBody, hlen, dataRowCount, List.countP_map, Function.comp,
      isDataRow, List.countP_true]
  · simp [renderApp, renderBody, hlen, placeholderCount, List.countP_map, Function.comp,
      isDataRow]

/-- C7 witness: a singleton target list renders exactly one data row and
no placeholder. -/
theorem C7_table_body_witness :
    renderApp ⟨[⟨⟨ofStr "ENSG00000146648", ofStr "EGFR",
        ofStr "epidermal growth factor receptor"⟩, 9/10, []⟩], false, none⟩ =
      AppView.tableView [BodyRow.dataRow ⟨⟨ofStr "ENSG00000146648", ofStr "EGFR",
        ofStr "epidermal growth factor receptor"⟩, 9/10, []⟩] ∧
    dataRowCount (renderApp ⟨[⟨⟨ofStr "ENSG00000146648", ofStr "EGFR",
        ofStr "epidermal growth factor receptor"⟩, 9/10, []⟩], false, none⟩) = 1 ∧
    placeholderCount (renderApp ⟨[⟨⟨ofStr "ENSG00000146648", ofStr "EGFR",
        ofStr "epidermal growth factor receptor"⟩, 9/10, []⟩], false, none⟩) = 0 :=
  C7_table_body.2 [⟨⟨ofStr "ENSG00000146648", ofStr "EGFR",
    ofStr "epidermal growth factor receptor"⟩, 9/10, []⟩] (by simp)

/-- C10: each failure kind stores a fixed message — every non-success
status stores exactly "Network response was not ok" and every parsed
payload missing the nested rows path stores exactly "Data structure from
API is not as expected."; both are non-empty. -/
theorem C10_fixed_error_messages :
    (∀ (parseErrMsg : String) (resp : FetchResponse), respOk resp.status = false →
      (fetchData parseErrMsg resp).error = some "Network response was not ok") ∧
    (∀ (parseErrMsg : String) (status : Nat) (result : Payload),
      respOk status = true → extractRows result = none →
      (fetchData parseErrMsg ⟨status, JsonBody.parsed result⟩).error =
        some "Data structure from API is not as expected.") ∧
    "Network response was not ok" ≠ "" ∧
    "Data structure from API is not as expected." ≠ "" := by
  refine ⟨fun parseErrMsg resp h => ?_, fun parseErrMsg status result hok hnone => ?_,
    by decide, by decide⟩
  · simp [fetchData, h]
  · simp [fetchData, hok, hnone]

/-- C10 witness: status 500 stores the network message; an ok status
with a payload whose `data` field is absent stores the shape message. -/
theorem C10_fixed_error_messages_witness :
    (fetchData "Unexpected token" ⟨500, JsonBody.parseError⟩).error =
      some "Network response was not ok" ∧
    (fetchData "Unexpected token" ⟨200, JsonBody.parsed ⟨none⟩⟩).error =
      some "Data structure from API is not as expected." :=
  ⟨C10_fixed_error_messages.1 "Unexpected token" ⟨500, JsonBody.parseError⟩ (by decide),
   C10_fixed_error_messages.2.1 "Unexpected token" 200 ⟨none⟩ (by decide) rfl⟩

/-- C3: a non-success status, an unparsable payload, or a parsed payload
missing the nested rows path all put the app in the same error state: a
non-empty message is stored, no rows are stored, the view renders the
error alert (one constructor for all three kinds, so they are not
distinguished downstream) and zero data rows. -/
theorem C3_failures_collapse (parseErrMsg : String) (resp : FetchResponse)
    (hmsg : parseErrMsg ≠ "")
    (hfail : respOk resp.status = false ∨
      (respOk resp.status = true ∧ resp.body = JsonBody.parseError) ∨
      (respOk resp.status = true ∧
        ∃ result, resp.body = JsonBody.parsed result ∧ extractRows result = none)) :
    ∃ m : String, m ≠ "" ∧
      fetchData parseErrMsg resp = ⟨[], false, some m⟩ ∧
      renderApp (fetchData parseErrMsg resp) = AppView.errorView m ∧
      dataRowCount (renderApp (fetchData parseErrMsg resp)) = 0 := by
  rcases hfail with h | ⟨hok, hb⟩ | ⟨hok, result, hb, hnone⟩
  · have hlen : "Network response was not ok".length ≠ 0 := by decide
    refine ⟨"Network response was not ok", by decide, ?_, ?_, ?_⟩
    · simp [fetchData, h]
    · simp [fetchData, h, renderApp, hlen]
    · simp [fetchData, h, renderApp, hlen, dataRowCount]
  · have hF : fetchData parseErrMsg resp = ⟨[], false, some parseErrMsg⟩ := by
      simp [fetchData, hok, hb]
    have hlen : parseErrMsg.length ≠ 0 := length_ne_zero_of_ne_empty parseErrMsg hmsg
    refine ⟨parseErrMsg, hmsg, hF, ?_, ?_⟩
    · rw [hF]; simp [renderApp, hlen]
    · rw [hF]; simp [renderApp, hlen, dataRowCount]
  · have hF : fetchData parseErrMsg resp =
        ⟨[], false, some "Data structure from API is not as expected."⟩ := by
      simp [fetchData, hok, hb, hnone]
    have hlen : "Data structure from API is not as expected.".length ≠ 0 := by decide
    refine ⟨"Data structure from API is not as expected.", by decide, hF, ?_, ?_⟩
    · rw [hF]; simp [renderApp, hlen]
    · rw [hF]; simp [renderApp, hlen, dataRowCount]

/-- C3 witness: an HTTP 500 response yields the error view with a
non-empty message and zero data rows. -/
theorem C3_failures_collapse_witness :
    ∃ m : String, m ≠ "" ∧
      fetchData "Unexpected end of JSON input" ⟨500, JsonBody.parseError⟩ =
        ⟨[], false, some m⟩ ∧
      renderApp (fetchData "Unexpected end of JSON input" ⟨500, JsonBody.parseError⟩) =
        AppView.errorView m ∧
      dataRowCount
        (renderApp (fetchData "Unexpected end of JSON input" ⟨500, JsonBody.parseError⟩)) = 0 :=
  C3_failures_collapse "Unexpected end of JSON input" ⟨500, JsonBody.parseError⟩
    (by decide) (Or.inl (by decide))

/-- C4 counterexample: expanding and collapsing a row reaches a state
that is collapsed and mounted yet still holds one registered resize
listener — the effect registers the listener while the row is collapsed
too, so the claim that a collapsed row never holds a listener is false. -/
theorem C4_counterexample_collapsed_listener :
    (runProc [ProcEvent.toggle, ProcEvent.toggle]).isOpen = false ∧
    (runProc [ProcEvent.toggle, ProcEvent.toggle]).mounted = true ∧
    (runProc [ProcEvent.toggle, ProcEvent.toggle]).resizeListeners = 1 := by
  refine ⟨rfl, rfl, rfl⟩

/-- C4 amended: the resize listener is acquired at mount and
re-registered (previous one removed) whenever `open` or the tab value
changes; it is released only at unmount.  Along every event sequence a
mounted row — collapsed or expanded — holds exactly one listener and an
unmounted row holds none, so repeated expand/collapse cycles never
accumulate listeners and none leaks past unmount. -/
theorem C4_amended_listener_lifecycle (es : List ProcEvent) :
    (runProc es).resizeListeners = if (runProc es).mounted then 1 else 0 :=
  foldl_stepProc_invariant es mountedRow rfl

/-- C1: for a score list populating any subset of the seven categories
(no duplicate identifiers), the normalized vector has exactly seven
entries, its labels are the fixed canonical order, every present
category carries its score and every absent one carries zero; and the
concrete instance of the claim holds. -/
theorem C1_normalized_vector (scores : List CategoryScore)
    (hnd : (scores.map CategoryScore.id).Nodup) :
    (chartData scores).length = 7 ∧
    (chartData scores).map Prod.fst = allDataTypes.map formatLabel ∧
    (∀ (i : Nat) (s : CategoryScore), s ∈ scores → allDataTypes[i]? = some s.id →
      (chartData scores)[i]? = some (formatLabel s.id, s.score)) ∧
    (∀ (i : Nat) (t : JStr), allDataTypes[i]? = some t →
      t ∉ scores.map CategoryScore.id →
      (chartData scores)[i]? = some (formatLabel t, 0)) ∧
    chartData [⟨ofStr "genetic_association", 8/10⟩, ⟨ofStr "literature", 2/10⟩] =
      [(ofStr "Literature", 2/10), (ofStr "RNA Expression", 0),
       (ofStr "Genetic Association", 8/10), (ofStr "Somatic Mutation", 0),
       (ofStr "Known Drug", 0), (ofStr "Animal Model", 0),
       (ofStr "Affected Pathway", 0)] := by
  refine ⟨?_, ?_, ?_, ?_, by rfl⟩
  · simp only [chartData, List.length_map]
    rfl
  · simp only [chartData, List.map_map]
    refine List.map_congr_left fun t ht => ?_
    simp only [Function.comp_apply]
    cases h : scores.find? (fun score => score.id = t) <;> simp [h]
  · intro i s hs hi
    simp only [chartData, List.getElem?_map, hi, Option.map_some']
    cases h : scores.find? (fun score => score.id = s.id) with
    | none =>
      exact absurd (by simp) (List.find?_eq_none.mp h s hs)
    | some s' =>
      have hps' : (fun score => decide (score.id = s.id)) s' = true :=
        @List.find?_some _ (fun score => decide (score.id = s.id)) s' scores h
      have hid : s'.id = s.id := of_decide_eq_true hps'
      have hmem : s' ∈ scores := List.mem_of_find?_eq_some h
      have : s' = s := List.inj_on_of_nodup_map hnd hmem hs hid
      subst this
      simp [hid]
  · intro i t hi hmem
    have h : scores.find? (fun score => score.id = t) = none :=
      List.find?_eq_none.mpr fun x hx => by
        simp only [decide_eq_true_eq]
        intro hxt
        exact hmem (hxt ▸ List.mem_map_of_mem CategoryScore.id hx)
    simp [chartData, List.getElem?_map, hi, h]

/-- C1 witness: the claim's concrete instance, with duplicate-free
identifiers, evaluated through the theorem. -/
theorem C1_normalized_vector_witness :
    (chartData [⟨ofStr "genetic_association", 8/10⟩, ⟨ofStr "literature", 2/10⟩]).length = 7 ∧
    chartData [⟨ofStr "genetic_association", 8/10⟩, ⟨ofStr "literature", 2/10⟩] =
      [(ofStr "Literature", 2/10), (ofStr "RNA Expression", 0),
       (ofStr "Genetic Association", 8/10), (ofStr "Somatic Mutation", 0),
       (ofStr "Known Drug", 0), (ofStr "Animal Model", 0),
       (ofStr "Affected Pathway", 0)] :=
  ⟨(C1_normalized_vector
      [⟨ofStr "genetic_association", 8/10⟩, ⟨ofStr "literature", 2/10⟩] (by decide)).1,
   (C1_normalized_vector
      [⟨ofStr "genetic_association", 8/10⟩, ⟨ofStr "literature", 2/10⟩] (by decide)).2.2.2.2⟩

/-- C9: when a category identifier occurs more than once in the sparse
score list, the normalized vector takes the score of the first
occurrence in list order (`Array.prototype.find`) and ignores the later
duplicates. -/
theorem C9_first_occurrence_wins (pre post : List CategoryScore) (s : CategoryScore)
    (i : Nat) (hi : allDataTypes[i]? = some s.id)
    (hpre : ∀ x ∈ pre, x.id ≠ s.id) :
    (chartData (pre ++ s :: post))[i]? = some (formatLabel s.id, s.score) := by
  have hpreNone : pre.find? (fun score => score.id = s.id) = none :=
    List.find?_eq_none.mpr fun x hx => by
      simp only [decide_eq_true_eq]
      exact hpre x hx
  have hfind : (pre ++ s :: post).find? (fun score => score.id = s.id) = some s := by
    rw [List.find?_append, hpreNone, Option.none_or]
    exact List.find?_cons_of_pos post (by simp)
  simp only [chartData, List.getElem?_map, hi, Option.map_some']
  rw [hfind]

/-- The ASCII uppercase map is idempotent. -/
theorem jsToUpperC_idem (c : Nat) : jsToUpperC (jsToUpperC c) = jsToUpperC c := by
  simp only [jsToUpperC]
  split_ifs <;> omega

/-- Lowercasing after uppercasing equals lowercasing. -/
theorem jsToLowerC_jsToUpperC (c : Nat) : jsToLowerC (jsToUpperC c) = jsToLowerC c := by
  simp only [jsToLowerC, jsToUpperC]
  split_ifs <;> omega

/-- Splitting never yields an empty list of segments. -/
theorem splitOnU_ne_nil (l : JStr) : splitOnU l ≠ [] := by
  induction l with
  | nil => simp [splitOnU]
  | cons c cs ih =>
    simp only [splitOnU]
    split_ifs
    · simp
    · cases h : splitOnU cs <;> simp

/-- No segment produced by `split('_')` contains an underscore. -/
theorem no_underscore_mem_splitOnU (l : JStr) : ∀ w ∈ splitOnU l, 95 ∉ w := by
  induction l with
  | nil =>
    intro w hw
    simp [splitOnU] at hw
    subst hw
    simp
  | cons c cs ih =>
    intro w hw
    simp only [splitOnU] at hw
    by_cases hc : c = 95
    · rw [if_pos hc] at hw
      rcases List.mem_cons.mp hw with h | h
      · subst h; simp
      · exact ih w h
    · rw [if_neg hc] at hw
      cases hsp : splitOnU cs with
      | nil => exact absurd hsp (splitOnU_ne_nil cs)
      | cons w₀ ws =>
        rw [hsp] at hw
        rcases List.mem_cons.mp hw with h | h
        · subst h
          intro hmem
          rcases List.mem_cons.mp hmem with h95 | h95
          · exact hc h95.symm
          · exact ih w₀ (by rw [hsp]; exact List.mem_cons_self w₀ ws) h95
        · exact ih w (by rw [hsp]; exact List.mem_cons.mpr (Or.inr h))

/-- A string without underscores splits into the single segment itself. -/
theorem splitOnU_eq_single (l : JStr) (h : 95 ∉ l) : splitOnU l = [l] := by
  induction l with
  | nil => rfl
  | cons c cs ih =>
    have hc : ¬ c = 95 := fun hc => h (by rw [hc]; exact List.mem_cons_self 95 cs)
    have hcs : 95 ∉ cs := fun hm => h (List.mem_cons.mpr (Or.inr hm))
    simp only [splitOnU, if_neg hc, ih hcs]

/-- The per-segment map introduces no underscore. -/
theorem no_underscore_formatSeg (w : JStr) (h : 95 ∉ w) : 95 ∉ formatSeg w := by
  unfold formatSeg
  split_ifs with hr
  · decide
  · cases w with
    | nil => simp [capFirst]
    | cons c cs =>
      have hc : c ≠ 95 := fun hc => h (by rw [hc]; exact List.mem_cons_self 95 cs)
      have hcs : 95 ∉ cs := fun hm => h (List.mem_cons.mpr (Or.inr hm))
      simp only [capFirst, List.mem_cons]
      rintro (h95 | h95)
      · have : jsToUpperC c ≠ 95 := by
          simp only [jsToUpperC]
          split_ifs <;> omega
        exact this h95.symm
      · exact hcs h95

/-- Joining underscore-free segments with spaces yields an
underscore-free string. -/
theorem no_underscore_joinSp (parts : List JStr) (h : ∀ w ∈ parts, 95 ∉ w) :
    95 ∉ joinSp parts := by
  induction parts with
  | nil => simp [joinSp]
  | cons w ws ih =>
    cases ws with
    | nil => simpa [joinSp] using h w (List.mem_cons_self w [])
    | cons w₂ ws' =>
      have hJ : joinSp (w :: w₂ :: ws') = w ++ 32 :: joinSp (w₂ :: ws') := rfl
      rw [hJ]
      intro hmem
      rcases List.mem_append.mp hmem with h95 | h95
      · exact h w (List.mem_cons_self w (w₂ :: ws')) h95
      · rcases List.mem_cons.mp h95 with h95 | h95
        · omega
        · exact ih (fun u hu => h u (List.mem_cons.mpr (Or.inr hu))) h95

/-- Lowercasing is blind to the first-character uppercasing. -/
theorem toLowerStr_capFirst (w : JStr) : toLowerStr (capFirst w) = toLowerStr w := by
  cases w with
  | nil => rfl
  | cons c cs => simp [toLowerStr, capFirst, jsToLowerC_jsToUpperC]

/-- The first character of a formatted segment is already uppercase
(fixed by the uppercase map). -/
theorem formatSeg_head_fixed (w : JStr) (c : Nat) (cs : JStr)
    (h : formatSeg w = c :: cs) : jsToUpperC c = c := by
  unfold formatSeg at h
  split_ifs at h with hr
  · have hRNA : ofStr "RNA" = [82, 78, 65] := by decide
    rw [hRNA] at h
    injection h with h1 _
    rw [← h1]
    decide
  · cases w with
    | nil => simp [capFirst] at h
    | cons d ds =>
      simp only [capFirst] at h
      injection h with h1 _
      rw [← h1]
      exact jsToUpperC_idem d

/-- A space-join of segments whose first characters are uppercase-fixed
has an uppercase-fixed first character. -/
theorem joinSp_head_fixed (parts : List JStr)
    (h : ∀ w ∈ parts, ∀ c cs, w = c :: cs → jsToUpperC c = c) :
    ∀ c cs, joinSp parts = c :: cs → jsToUpperC c = c := by
  induction parts with
  | nil =>
    intro c cs hj
    simp [joinSp] at hj
  | cons w ws ih =>
    cases ws with
    | nil =>
      intro c cs hj
      exact h w (List.mem_cons_self w []) c cs hj
    | cons w₂ ws' =>
      intro c cs hj
      have hJ : joinSp (w :: w₂ :: ws') = w ++ 32 :: joinSp (w₂ :: ws') := rfl
      rw [hJ] at hj
      cases w with
      | nil =>
        rw [List.nil_append] at hj
        injection hj with h1 _
        rw [← h1]
        decide
      | cons d ds =>
        rw [List.cons_append] at hj
        injection hj with h1 _
        rw [← h1]
        exact h (d :: ds) (List.mem_cons_self (d :: ds) (w₂ :: ws')) d ds rfl

/-- A join of two or more segments contains a space, so its lowercase
form cannot be the space-free string "rna". -/
theorem toLowerStr_joinSp_ne_rna (w₁ w₂ : JStr) (ws : List JStr) :
    toLowerStr (joinSp (w₁ :: w₂ :: ws)) ≠ ofStr "rna" := by
  intro h
  have h32 : (32 : Nat) ∈ joinSp (w₁ :: w₂ :: ws) := by
    have hJ : joinSp (w₁ :: w₂ :: ws) = w₁ ++ 32 :: joinSp (w₂ :: ws) := rfl
    rw [hJ]
    exact List.mem_append.mpr (Or.inr (List.mem_cons_self 32 (joinSp (w₂ :: ws))))
  have hm : jsToLowerC 32 ∈ toLowerStr (joinSp (w₁ :: w₂ :: ws)) :=
    List.mem_map_of_mem jsToLowerC h32
  rw [h] at hm
  revert hm
  decide

/-- A formatted label contains no underscore. -/
theorem formatLabel_no_underscore (l : JStr) : 95 ∉ formatLabel l :=
  no_underscore_joinSp _ fun w hw => by
    rcases List.mem_map.mp hw with ⟨u, hu, rfl⟩
    exact no_underscore_formatSeg u (no_underscore_mem_splitOnU l u hu)

/-- A formatted label is a fixed point of the per-segment map. -/
theorem formatSeg_formatLabel (l : JStr) : formatSeg (formatLabel l) = formatLabel l := by
  unfold formatSeg
  split_ifs with hr
  · cases hsp : splitOnU l with
    | nil => exact absurd hsp (splitOnU_ne_nil l)
    | cons w ws =>
      cases ws with
      | nil =>
        have hFL : formatLabel l = formatSeg w := by
          unfold formatLabel
          rw [hsp]
          rfl
        rw [hFL] at hr ⊢
        unfold formatSeg at hr ⊢
        split_ifs at hr ⊢ with hw
        · rfl
        · rw [toLowerStr_capFirst] at hr
          exact absurd hr hw
      | cons w₂ ws' =>
        have hFL : formatLabel l =
            joinSp (formatSeg w :: formatSeg w₂ :: ws'.map formatSeg) := by
          unfold formatLabel
          rw [hsp]
          rfl
        rw [hFL] at hr
        exact absurd hr (toLowerStr_joinSp_ne_rna _ _ _)
  · have hhead : ∀ c cs, formatLabel l = c :: cs → jsToUpperC c = c := by
      unfold formatLabel
      exact joinSp_head_fixed _ fun w hw c cs hwc => by
        rcases List.mem_map.mp hw with ⟨u, hu, rfl⟩
        exact formatSeg_head_fixed u c cs hwc
    cases hL : formatLabel l with
    | nil => simp [capFirst]
    | cons c cs => simp [capFirst, hhead c cs hL]

/-- The function `formatLabel` is idempotent. -/
theorem formatLabel_idem (l : JStr) : formatLabel (formatLabel l) = formatLabel l := by
  have h95 : 95 ∉ formatLabel l := formatLabel_no_underscore l
  have hsp : splitOnU (formatLabel l) = [formatLabel l] :=
    splitOnU_eq_single (formatLabel l) h95
  calc formatLabel (formatLabel l)
      = joinSp ((splitOnU (formatLabel l)).map formatSeg) := rfl
    _ = joinSp [formatSeg (formatLabel l)] := by rw [hsp]; rfl
    _ = formatSeg (formatLabel l) := rfl
    _ = formatLabel l := formatSeg_formatLabel l

/-- C8: `formatLabel` is a total deterministic function, idempotent on
every input string, and maps any single-segment identifier whose
lowercase form is "rna" to exactly "RNA" (the case-insensitive special
case). -/
theorem C8_formatLabel_idempotent :
    (∀ l : JStr, formatLabel (formatLabel l) = formatLabel l) ∧
    (∀ w : JStr, 95 ∉ w → toLowerStr w = ofStr "rna" → formatLabel w = ofStr "RNA") := by
  refine ⟨formatLabel_idem, fun w h95 hrna => ?_⟩
  unfold formatLabel
  rw [splitOnU_eq_single w h95]
  show joinSp [formatSeg w] = ofStr "RNA"
  simp [formatSeg, hrna, joinSp]

/-- C8 witness: idempotence at a concrete identifier and the
case-insensitive "rna" special case at the concrete input "rNa". -/
theorem C8_formatLabel_idempotent_witness :
    formatLabel (formatLabel (ofStr "animal_model")) = formatLabel (ofStr "animal_model") ∧
    formatLabel (ofStr "rNa") = ofStr "RNA" :=
  ⟨C8_formatLabel_idempotent.1 (ofStr "animal_model"),
   C8_formatLabel_idempotent.2 (ofStr "rNa") (by decide) (by decide)⟩

/-- C9 witness: with two entries for `genetic_association`, the vector
carries the first one's score. -/
theorem C9_first_occurrence_wins_witness :
    (chartData [⟨ofStr "genetic_association", 8/10⟩,
        ⟨ofStr "genetic_association", 3/10⟩])[2]? =
      some (formatLabel (ofStr "genetic_association"), 8/10) :=
  C9_first_occurrence_wins [] [⟨ofStr "genetic_association", 3/10⟩]
    ⟨ofStr "genetic_association", 8/10⟩ 2 (by rfl) (by simp)
